import Mathlib

/-!
Shallow embedding of `src/processing/interpolate_scaled_offset_field.py`.
Python floats are modelled as exact rationals, pandas missing values (NaN)
as `Option.none`, and Python fatal outcomes (uncaught exceptions as well as
logged `sys.exit(1)` calls) as an error type threaded through `Except`.
External library semantics (sklearn `KNeighborsRegressor`, sklearn `KFold`,
scipy `LinearNDInterpolator`) are modelled faithfully where the claims need
them; each such definition says so in its doc comment.
-/

/-- Python-level fatal outcomes: the uncaught exception classes that the
module can raise, and `loggedExit` for a diagnostic logged followed by
`sys.exit(1)`. -/
inductive PyErr where
  | valueError : PyErr
  | keyError : PyErr
  | indexError : PyErr
  | nameError : PyErr
  | loggedExit : PyErr
deriving DecidableEq, Repr

instance {ε α : Type _} [DecidableEq ε] [DecidableEq α] :
    DecidableEq (Except ε α) := fun a b =>
  match a, b with
  | .error e, .error f =>
    if h : e = f then isTrue (by rw [h])
    else isFalse (by intro hh; cases hh; exact h rfl)
  | .ok x, .ok y =>
    if h : x = y then isTrue (by rw [h])
    else isFalse (by intro hh; cases hh; exact h rfl)
  | .error _, .ok _ => isFalse (by intro hh; cases hh)
  | .ok _, .error _ => isFalse (by intro hh; cases hh)

/-- One row of a `LON`, `LAT`, `VAL` frame; `VAL` may be missing (NaN).
`LON` and `LAT` are always present in the frames the module manipulates. -/
abbrev Row := ℚ × ℚ × Option ℚ

/-- A pandas DataFrame holding the `LON`, `LAT`, `VAL` columns. -/
abbrev Frame := List Row

/-- Models `df.dropna()`: keep the rows whose `VAL` is present. -/
def dropna (df : Frame) : List (ℚ × ℚ × ℚ) :=
  df.filterMap (fun r => (r.2.2).map (fun v => (r.1, r.2.1, v)))

/-- Squared Euclidean distance on `(LON, LAT)` pairs. -/
def sqDist (p q : ℚ × ℚ) : ℚ := (p.1 - q.1) ^ 2 + (p.2 - q.2) ^ 2

/-- Insertion of an element into a sorted list. -/
def insertSorted (le : α → α → Bool) (a : α) : List α → List α
  | [] => [a]
  | b :: t => if le a b then a :: b :: t else b :: insertSorted le a t

/-- Insertion sort by a boolean comparison. -/
def sortBy (le : α → α → Bool) (l : List α) : List α :=
  l.foldr (insertSorted le) []

/-- Models one prediction of sklearn
`KNeighborsRegressor(n_neighbors=k, weights=uniform)` fitted on `src`:
the mean of the `VAL` entries of the `k` source points nearest to `q`. -/
def knnPredict (src : List (ℚ × ℚ × ℚ)) (k : ℕ) (q : ℚ × ℚ) : ℚ :=
  let sorted := sortBy
    (fun a b => decide (sqDist (a.1, a.2.1) q ≤ sqDist (b.1, b.2.1) q)) src
  ((sorted.take k).map (fun r => r.2.2)).sum / (k : ℚ)

/-- Models `knn_fit_control_points` (lines 105-148) as a value-level
function: drop missing source rows, fit `KNeighborsRegressor` on the source
coordinates and values, predict every control coordinate, and write the
predictions into the control frame `VAL` column.  sklearn raises a
`ValueError` when the requested neighbor count is 0 or exceeds the number of
fitted samples, which the function does not guard against. -/
def knn_fit_control_points (df_source df_controls : Frame)
    (nearest_neighbors : ℕ) : Except PyErr Frame :=
  let src := dropna df_source
  if nearest_neighbors = 0 ∨ src.length < nearest_neighbors then
    .error .valueError
  else
    .ok (df_controls.map
      (fun r => (r.1, r.2.1, some (knnPredict src nearest_neighbors (r.1, r.2.1)))))

/-- A Python heap fragment: object references (list positions) to frames. -/
abbrev Store := List Frame

/-- Reference-level model of `knn_fit_control_points` (lines 105-148): the
statement `df_controls[VAL] = control_values` overwrites the `VAL` column of
the frame that `ctlRef` points to, in place, and the function returns that
same reference. -/
def knn_fit_control_points_ref (s : Store) (srcRef ctlRef nearest_neighbors : ℕ) :
    Except PyErr (Store × ℕ) :=
  let src := dropna (s.getD srcRef [])
  if nearest_neighbors = 0 ∨ src.length < nearest_neighbors then
    .error .valueError
  else
    .ok (s.set ctlRef ((s.getD ctlRef []).map
      (fun r => (r.1, r.2.1, some (knnPredict src nearest_neighbors (r.1, r.2.1))))),
      ctlRef)

/-- Models one iteration of the cross-validation loop of
`test_interpolation_fit` (lines 321-336) when land controls are supplied:
the train-split KNN fit and then the test-split KNN fit (with the neighbor
count capped at the test length, line 329) both write into the land-control
object at `landRef`; afterwards `df_Train = pd.concat(train_list)` reads the
then-current contents of the appended frames.  Returns the resulting heap
together with `df_Train`. -/
def fold_training_frame (s : Store) (trainRef testRef landRef k : ℕ)
    (water : Option Frame) : Except PyErr (Store × Frame) := do
  let (s1, trainFitRef) ← knn_fit_control_points_ref s trainRef landRef k
  let testLen := (s1.getD testRef []).length
  let ktest := if testLen < k then testLen else k
  let (s2, _) ← knn_fit_control_points_ref s1 testRef landRef ktest
  let base := s2.getD trainRef [] ++ s2.getD trainFitRef []
  .ok (s2, match water with | some w => base ++ w | none => base)

example :
    knn_fit_control_points [(0, 0, some 1)] [(2, 2, some 0)] 2 =
      .error .valueError := by
  norm_num [knn_fit_control_points, dropna, List.filterMap_cons]

example :
    knn_fit_control_points [(0, 0, some 1)] [(2, 2, some 0)] 1 =
      .ok [(2, 2, some 1)] := by
  norm_num [knn_fit_control_points, dropna, knnPredict, sortBy, insertSorted,
    sqDist, List.filterMap_cons]

/-- Models pandas `columns.str.replace(' ', '')`: remove every space. -/
def stripSpaces (s : String) : String :=
  String.mk (s.data.filter (fun c => c ≠ ' '))

/-- Models Python `str.upper()` on the ASCII header names in play. -/
def upperAscii (s : String) : String :=
  String.mk (s.data.map Char.toUpper)

/-- Column-name normalization performed by `get_lon_lat_control_values`
(lines 35-37): rename the caller-designated value column `header_data` to
`val`, then strip spaces from every name, then upper-case every name. -/
def normalizeControlCols (cols : List String) (header_data : String) :
    List String :=
  (cols.map (fun c => if c = header_data then "val" else c)).map
    (fun c => upperAscii (stripSpaces c))

/-- Models `get_lon_lat_control_values` (lines 15-46) at the column level:
after normalization the code collects `col_headers`, the normalized names
equal to `LON`, `LAT` or `VAL` counted with multiplicity, and logs and exits
unless exactly 3 were collected; it then selects the columns
`[LON, LAT, VAL]`, which raises an uncaught `KeyError` if one of the three
is absent (possible when a recognized name occurs twice).  On success the
returned frame carries exactly the columns `LON, LAT, VAL`. -/
def get_lon_lat_control_values (cols : List String) (header_data : String) :
    Except PyErr (List String) :=
  let ncols := normalizeControlCols cols header_data
  let col_headers := ncols.filter
    (fun c => c == "LON" || c == "LAT" || c == "VAL")
  if col_headers.length ≠ 3 then .error .loggedExit
  else if "LON" ∈ ncols ∧ "LAT" ∈ ncols ∧ "VAL" ∈ ncols then
    .ok ["LON", "LAT", "VAL"]
  else .error .keyError

/-- A DataFrame together with its column names; `rows` holds the
`LON, LAT, VAL` content (meaningful when those columns are present). -/
structure NamedFrame where
  cols : List String
  rows : Frame
deriving DecidableEq

/-- Models `combine_datasets_for_interpolation` (lines 150-173).  The try
block projects each input frame to `[LON, LAT, VAL]`; a frame lacking one of
the three columns raises `KeyError`, and the except handler then evaluates
`template.format(...)` where the name `template` is undefined anywhere in the
module, so the function terminates with an uncaught `NameError`: the logged
diagnostic and the `sys.exit(1)` on lines 170-171 are never reached.  When
every frame conforms, the projections are concatenated. -/
def combine_datasets_for_interpolation (list_dfs : List NamedFrame) :
    Except PyErr Frame :=
  if list_dfs.all (fun df =>
      df.cols.contains "LON" && df.cols.contains "LAT" && df.cols.contains "VAL")
  then .ok (list_dfs.map (fun df => df.rows)).flatten
  else .error .nameError

/-- Start index of test fold `i` in sklearn `KFold(n_splits=K, shuffle=False)`
over `N` samples: the first `N mod K` folds get one extra sample. -/
def kfold_fold_start (N K i : ℕ) : ℕ := i * (N / K) + min i (N % K)

/-- Size of test fold `i` in sklearn `KFold(n_splits=K, shuffle=False)`. -/
def kfold_fold_size (N K i : ℕ) : ℕ :=
  N / K + if i < N % K then 1 else 0

/-- The `K` test-index lists of sklearn `KFold(n_splits=K, shuffle=False)`
over `N` samples: contiguous blocks of indices. -/
def kfold_test_folds (N K : ℕ) : List (List ℕ) :=
  (List.range K).map
    (fun i => List.range' (kfold_fold_start N K i) (kfold_fold_size N K i))

/-- Models `KFold(n_splits=K).split` as used by `test_interpolation_fit`
(lines 316-321): sklearn raises a `ValueError` unless `2 ≤ K` and
`K ≤ n_samples`; otherwise it yields the contiguous test folds. -/
def kfold_split (N K : ℕ) : Except PyErr (List (List ℕ)) :=
  if 2 ≤ K ∧ K ≤ N then .ok (kfold_test_folds N K) else .error .valueError

/-- The test folds that `test_interpolation_fit` iterates over (lines
313-321): the station frame is first purged of missing values, then split by
`KFold(n_splits=cv_splits)`. -/
def test_interpolation_fit_folds (df_source : Frame) (cv_splits : ℕ) :
    Except PyErr (List (List ℕ)) :=
  kfold_split (dropna df_source).length cv_splits

/-- Models `interpolation_model_transform` (lines 223-261).  The model is
`None`-checked first.  In `grid` mode the outer loop runs over the `LAT`
axis and the inner loop over the `LON` axis, appending
`(gx, gy, model(gx, gy))`.  In every other mode (`points`) the single loop
runs over the indices of `LAT`, reading `gridx[y]` and `gridy[y]`; when
`LON` is shorter than `LAT` the access `gridx[y]` raises an uncaught
`IndexError`, and when `LON` is longer its trailing entries are never read. -/
def interpolation_model_transform (lon lat : List ℚ)
    (model : Option (ℚ → ℚ → ℚ)) (input_grid_type : String) :
    Except PyErr (List (ℚ × ℚ × ℚ)) :=
  match model with
  | none => .error .loggedExit
  | some m =>
    if input_grid_type = "grid" then
      .ok ((lat.map (fun gy => lon.map (fun gx => (gx, gy, m gx gy)))).flatten)
    else
      if lon.length < lat.length then .error .indexError
      else .ok (((lon.take lat.length).zip lat).map
        (fun p => (p.1, p.2, m p.1 p.2)))

/-- Lexicographic strict comparison of Python lists of floats, as used by
`min` over the per-fold score lists (lines 355-356). -/
def pyListLt : List ℚ → List ℚ → Bool
  | [], [] => false
  | [], _ :: _ => true
  | _ :: _, [] => false
  | a :: as, b :: bs =>
    if a < b then true else if b < a then false else pyListLt as bs

/-- Models Python `min` over a nonempty collection of float lists: iterate,
replacing the current minimum only on strict decrease, so the first minimal
element is kept.  The empty case is unreachable in the harness. -/
def pyMinLists (l : List (List ℚ)) : List ℚ :=
  match l with
  | [] => []
  | h :: t => t.foldl (fun acc x => if pyListLt x acc then x else acc) h

/-- The aggregate entries of one score series of `test_interpolation_fit`
(lines 355-368): each fold key holds the one-element list of its score, the
best entry is the Python `min` of those lists, and the average entry starts
at 0.0, accumulates `fold_i[0]` for `i = 1..K` in order, and is divided by
`K`. -/
structure CVReport where
  fold_scores : List (List ℚ)
  best : List ℚ
  avg : ℚ
deriving DecidableEq

/-- Aggregation of one score series, as performed identically for the
station series and the control series in lines 355-368. -/
def aggregate_scores (scores : List ℚ) : CVReport :=
  let folds := scores.map (fun s => [s])
  { fold_scores := folds
    best := pyMinLists folds
    avg := (scores.foldl (fun a b => a + b) 0) / (scores.length : ℚ) }

/-- Models the report assembled by `test_interpolation_fit` from the per-fold
station scores and the per-fold control scores (lines 355-368). -/
def test_interpolation_fit_report (station_scores cntl_scores : List ℚ) :
    CVReport × CVReport :=
  (aggregate_scores station_scores, aggregate_scores cntl_scores)

/-- A triangle of the scipy Delaunay triangulation, carried with the training
value at each vertex. -/
structure Tri where
  A : (ℚ × ℚ) × ℚ
  B : (ℚ × ℚ) × ℚ
  C : (ℚ × ℚ) × ℚ
deriving DecidableEq

/-- Twice the signed area of a triangle (the barycentric denominator). -/
def triDet (t : Tri) : ℚ :=
  (t.B.1.1 - t.A.1.1) * (t.C.1.2 - t.A.1.2) -
    (t.C.1.1 - t.A.1.1) * (t.B.1.2 - t.A.1.2)

/-- Barycentric weight of vertex `A` at query `q`. -/
def baryA (t : Tri) (q : ℚ × ℚ) : ℚ :=
  ((t.B.1.1 - q.1) * (t.C.1.2 - q.2) -
    (t.C.1.1 - q.1) * (t.B.1.2 - q.2)) / triDet t

/-- Barycentric weight of vertex `B` at query `q`. -/
def baryB (t : Tri) (q : ℚ × ℚ) : ℚ :=
  ((t.C.1.1 - q.1) * (t.A.1.2 - q.2) -
    (t.A.1.1 - q.1) * (t.C.1.2 - q.2)) / triDet t

/-- Barycentric weight of vertex `C` at query `q`. -/
def baryC (t : Tri) (q : ℚ × ℚ) : ℚ :=
  ((t.A.1.1 - q.1) * (t.B.1.2 - q.2) -
    (t.B.1.1 - q.1) * (t.A.1.2 - q.2)) / triDet t

/-- Closure membership of `q` in a nondegenerate triangle: every barycentric
weight is nonnegative. -/
def triContains (t : Tri) (q : ℚ × ℚ) : Bool :=
  decide (triDet t ≠ 0 ∧ 0 ≤ baryA t q ∧ 0 ≤ baryB t q ∧ 0 ≤ baryC t q)

/-- Piecewise-linear interpolation inside one triangle: the barycentric
combination of the vertex values. -/
def interpTri (t : Tri) (q : ℚ × ℚ) : ℚ :=
  baryA t q * t.A.2 + baryB t q * t.B.2 + baryC t q * t.C.2

/-- Models a fitted scipy `LinearNDInterpolator`: the training points with
their values, the Delaunay triangles over them, and the out-of-hull fill
value. -/
structure LinModel where
  data : List ((ℚ × ℚ) × ℚ)
  tris : List Tri
  fill : ℚ
deriving DecidableEq

/-- Evaluation of a fitted `LinearNDInterpolator` at one query point: find a
triangle whose closure holds the query and interpolate linearly inside it;
outside every triangle (outside the convex hull) return the fill value. -/
def linEval (m : LinModel) (q : ℚ × ℚ) : ℚ :=
  match m.tris.find? (fun t => triContains t q) with
  | some t => interpTri t q
  | none => m.fill

/-- A fitted interpolation model: the `LinearNDInterpolator` case is modelled
in full; the `CloughTocher2DInterpolator` case keeps its inputs opaque since
no claim concerns its evaluation. -/
inductive InterpModel where
  | linear : LinModel → InterpModel
  | cloughTocher : List ((ℚ × ℚ) × ℚ) → ℚ → InterpModel
deriving DecidableEq

/-- Models `interpolation_model_fit` (lines 175-220): reject any
`interpolation_type` whose upper-casing is not one of the two supported
names, drop the rows with missing `VAL`, and hand the `(LON, LAT)` points
and values to the scipy interpolator.  The Delaunay triangulation scipy
computes internally is supplied by the `delaunay` parameter, which models
that external step. -/
def interpolation_model_fit (df_combined : Frame) (fill_value : ℚ)
    (interpolation_type : String)
    (delaunay : List ((ℚ × ℚ) × ℚ) → List Tri) : Except PyErr InterpModel :=
  if upperAscii interpolation_type = "LINEARNDINTERPOLATOR" then
    let data := (dropna df_combined).map (fun r => ((r.1, r.2.1), r.2.2))
    .ok (.linear { data := data, tris := delaunay data, fill := fill_value })
  else if upperAscii interpolation_type = "CLOUGHTOCHER2DINTERPOLATOR" then
    let data := (dropna df_combined).map (fun r => ((r.1, r.2.1), r.2.2))
    .ok (.cloughTocher data fill_value)
  else .error .loggedExit

/-- The guarantees of a scipy Delaunay triangulation of the data points that
the exactness argument needs: every triangle has its three vertices among
the data points and is nondegenerate, and no data point lies in the closure
of a triangle it is not a vertex of (Delaunay triangulations have no
T-junctions: the triangles tile the hull with the data points as vertices). -/
def DelaunayValid (data : List ((ℚ × ℚ) × ℚ)) (tris : List Tri) : Prop :=
  ∀ t ∈ tris,
    (t.A ∈ data ∧ t.B ∈ data ∧ t.C ∈ data) ∧
    triDet t ≠ 0 ∧
    ∀ pv ∈ data, triContains t pv.1 →
      (pv.1 = t.A.1 ∨ pv.1 = t.B.1 ∨ pv.1 = t.C.1)

instance (data : List ((ℚ × ℚ) × ℚ)) (tris : List Tri) :
    Decidable (DelaunayValid data tris) := by
  unfold DelaunayValid; infer_instance

/-- C2 counterexample: on the non-empty one-station source, a requested
neighbor count of 2 makes `knn_fit_control_points` fail with the sklearn
`ValueError` instead of behaving as if capped, while the capped count 1
would have succeeded and filled the control point. -/
theorem knn_fit_oversized_k_fails :
    knn_fit_control_points [(0, 0, some 1)] [(2, 2, some 0)] 2 =
      .error .valueError ∧
    knn_fit_control_points [(0, 0, some 1)] [(2, 2, some 0)] 1 =
      .ok [(2, 2, some 1)] := by
  constructor
  · norm_num [knn_fit_control_points, dropna, List.filterMap_cons]
  · norm_num [knn_fit_control_points, dropna, knnPredict, sortBy, insertSorted,
      sqDist, List.filterMap_cons]

/-- C2 amended: `knn_fit_control_points` itself succeeds only when the
requested neighbor count is at least 1 and at most the number of non-missing
source rows; the capping the claim describes is performed by its caller
`test_interpolation_fit`, which passes `min(len(test), k)` for the test-fold
fit (line 329), so that call never fails on a non-empty missing-free test
fold. -/
theorem knn_fit_cap_enforced_by_caller (df_source df_controls : Frame)
    (k : ℕ) :
    (1 ≤ k → k ≤ (dropna df_source).length →
      ∃ out, knn_fit_control_points df_source df_controls k = .ok out) ∧
    (∀ df_test : Frame, 1 ≤ k →
      (dropna df_test).length = df_test.length → df_test ≠ [] →
      ∃ out, knn_fit_control_points df_test df_controls
        (if df_test.length < k then df_test.length else k) = .ok out) := by
  constructor
  · intro h1 h2
    unfold knn_fit_control_points
    rw [if_neg (by omega)]
    exact ⟨_, rfl⟩
  · intro df_test h1 hlen hne
    have hpos : 0 < df_test.length := List.length_pos.mpr hne
    unfold knn_fit_control_points
    rw [if_neg (by split_ifs <;> omega)]
    exact ⟨_, rfl⟩

/-- C2 witness for the amended theorem at concrete inputs. -/
theorem knn_fit_cap_enforced_by_caller_witness :
    (∃ out, knn_fit_control_points [(0, 0, some 1)] [(2, 2, some 0)] 1 =
      .ok out) ∧
    (∃ out, knn_fit_control_points [(3, 3, some 4)] [(2, 2, some 0)]
      (if List.length [((3 : ℚ), (3 : ℚ), some (4 : ℚ))] < 5 then
        List.length [((3 : ℚ), (3 : ℚ), some (4 : ℚ))] else 5) = .ok out) := by
  constructor
  · exact (knn_fit_cap_enforced_by_caller [(0, 0, some 1)] [(2, 2, some 0)] 1).1
      (by norm_num) (by norm_num [dropna, List.filterMap_cons])
  · exact (knn_fit_cap_enforced_by_caller [] [(2, 2, some 0)] 5).2
      [(3, 3, some 4)] (by norm_num)
      (by norm_num [dropna, List.filterMap_cons]) (by simp)

/-- Reading an updated list at an untouched position. -/
theorem getD_set_ne {α : Type _} (l : List α) (i j : ℕ) (x d : α)
    (h : i ≠ j) : (l.set i x).getD j d = l.getD j d := by
  simp only [List.getD_eq_getElem?_getD]
  rw [List.getElem?_set_ne h]

/-- Reading an updated list at the updated position. -/
theorem getD_set_self {α : Type _} (l : List α) (i : ℕ) (x d : α)
    (h : i < l.length) : (l.set i x).getD i d = x := by
  simp only [List.getD_eq_getElem?_getD]
  rw [@List.getElem?_set_self _ l i x h]
  rfl

/-- C9: `knn_fit_control_points` does not allocate a fresh control-point
set: it writes the predicted values into the `VAL` column of the very frame
its `ctlRef` argument points to and returns that same reference, so after
two successive successful calls on the same control reference (with the
second source reference distinct from it) the frame holds only the values of
the second fit, computed from the second source at the original control
coordinates. -/
theorem knn_fit_control_points_mutates_in_place
    (s : Store) (r1 r2 c k1 k2 : ℕ) (hr2 : r2 ≠ c)
    (s1 : Store) (ret1 : ℕ)
    (hcall1 : knn_fit_control_points_ref s r1 c k1 = .ok (s1, ret1))
    (s2 : Store) (ret2 : ℕ)
    (hcall2 : knn_fit_control_points_ref s1 r2 c k2 = .ok (s2, ret2)) :
    ret1 = c ∧ ret2 = c ∧
    s2.getD c [] = (s.getD c []).map
      (fun r => (r.1, r.2.1,
        some (knnPredict (dropna (s.getD r2 [])) k2 (r.1, r.2.1)))) := by
  simp only [knn_fit_control_points_ref] at hcall1 hcall2
  split at hcall1
  · exact absurd hcall1 (by simp)
  rw [Except.ok.injEq, Prod.mk.injEq] at hcall1
  obtain ⟨hs1, hret1⟩ := hcall1
  split at hcall2
  · exact absurd hcall2 (by simp)
  rw [Except.ok.injEq, Prod.mk.injEq] at hcall2
  obtain ⟨hs2, hret2⟩ := hcall2
  refine ⟨hret1.symm, hret2.symm, ?_⟩
  rw [← hs2]
  by_cases hc : c < s.length
  · have hc1 : c < s1.length := by rw [← hs1, List.length_set]; exact hc
    rw [getD_set_self s1 c _ [] hc1]
    have hr2eq : s1.getD r2 ([] : Frame) = s.getD r2 [] := by
      rw [← hs1]; exact getD_set_ne s c r2 _ [] (Ne.symm hr2)
    rw [hr2eq]
    have hceq : s1.getD c ([] : Frame) = (s.getD c []).map
        (fun r => (r.1, r.2.1,
          some (knnPredict (dropna (s.getD r1 [])) k1 (r.1, r.2.1)))) := by
      rw [← hs1]; exact getD_set_self s c _ [] hc
    rw [hceq, List.map_map]
    rfl
  · have hs1id : s1 = s := by
      rw [← hs1]; exact List.set_eq_of_length_le (by omega)
    rw [hs1id, List.set_eq_of_length_le (by omega),
      List.getD_eq_default s [] (by omega)]
    rfl

/-- C9 witness: two successive fits on the same control reference, from a
source holding value 1 and then from a source holding value 2, leave the
control frame holding only the value of the second fit. -/
theorem knn_fit_control_points_mutates_in_place_witness :
    (2 = 2 ∧ 2 = 2 ∧
      List.getD ([[(0, 0, some 1)], [(0, 0, some 2)], [(5, 5, some 2)]] : Store)
          2 [] =
        (List.getD ([[(0, 0, some 1)], [(0, 0, some 2)], [(5, 5, some 0)]] :
            Store) 2 []).map
          (fun r => (r.1, r.2.1,
            some (knnPredict
              (dropna (List.getD
                ([[(0, 0, some 1)], [(0, 0, some 2)], [(5, 5, some 0)]] : Store)
                1 []))
              1 (r.1, r.2.1))))) := by
  exact knn_fit_control_points_mutates_in_place
    [[(0, 0, some 1)], [(0, 0, some 2)], [(5, 5, some 0)]] 0 1 2 1 1
    (by omega)
    [[(0, 0, some 1)], [(0, 0, some 2)], [(5, 5, some 1)]] 2
    (by norm_num [knn_fit_control_points_ref, dropna, knnPredict, sortBy,
      insertSorted, sqDist, List.filterMap_cons])
    [[(0, 0, some 1)], [(0, 0, some 2)], [(5, 5, some 2)]] 2
    (by norm_num [knn_fit_control_points_ref, dropna, knnPredict, sortBy,
      insertSorted, sqDist, List.filterMap_cons])

/-- C1 (failing input): with stations `{(0,0)=1, (4,0)=2}` in the train
split, `{(10,10)=5}` in the test split, one land control at `(0,1)` and
`k = 1`, the fold's concatenated training frame ends with the land control
carrying value 5, the value KNN-fitted from the *test* split, because both
KNN calls wrote into the same land-control object and the concat happens
after the second call.  The train-split fit, which the claim says is what
enters the training set, would have assigned value 1 instead. -/
theorem fold_training_frame_contains_test_fitted_controls :
    fold_training_frame
      [[(0, 0, some 1), (4, 0, some 2)], [(10, 10, some 5)], [(0, 1, some 0)]]
      0 1 2 1 none =
      .ok ([[(0, 0, some 1), (4, 0, some 2)], [(10, 10, some 5)],
            [(0, 1, some 5)]],
        [(0, 0, some 1), (4, 0, some 2), (0, 1, some 5)]) ∧
    knn_fit_control_points [(0, 0, some 1), (4, 0, some 2)]
      [(0, 1, some 0)] 1 = .ok [(0, 1, some 1)] ∧
    (5 : ℚ) ≠ 1 := by
  refine ⟨?_, ?_, by norm_num⟩
  · norm_num [fold_training_frame, knn_fit_control_points_ref, dropna,
      knnPredict, sortBy, insertSorted, sqDist, List.filterMap_cons,
      Bind.bind, Except.bind]
  · norm_num [knn_fit_control_points, dropna, knnPredict, sortBy,
      insertSorted, sqDist, List.filterMap_cons]

/-- C6 (failing input): handed one frame whose columns are only
`LON, LAT`, `combine_datasets_for_interpolation` terminates with the
uncaught `NameError` raised inside its own except handler (the name
`template` is undefined), so the promised diagnostic-then-exit path is never
taken; on conforming inputs the full concatenation is returned. -/
theorem combine_datasets_missing_column_raises_nameerror :
    combine_datasets_for_interpolation
      [{ cols := ["LON", "LAT"], rows := [] }] = .error .nameError ∧
    combine_datasets_for_interpolation
      [{ cols := ["LON", "LAT"], rows := [] }] ≠ .error .loggedExit ∧
    combine_datasets_for_interpolation
      [{ cols := ["LON", "LAT", "VAL"], rows := [(1, 2, some 3)] },
       { cols := ["LON", "LAT", "VAL"], rows := [(4, 5, some 6)] }] =
      .ok [(1, 2, some 3), (4, 5, some 6)] := by decide

/-- C7 counterexample: a header whose raw names `lon, LON, lat, val`
normalize to `LON, LON, LAT, VAL` has recognized-column *set* exactly
`{LON, LAT, VAL}`, yet `get_lon_lat_control_values` rejects it with the
configuration exit because it counts recognized names with multiplicity
(4 here, not 3). -/
theorem control_header_duplicate_columns_rejected :
    get_lon_lat_control_values ["lon", "LON", "lat", "val"] "val" =
      .error .loggedExit ∧
    ("LON" ∈ normalizeControlCols ["lon", "LON", "lat", "val"] "val" ∧
     "LAT" ∈ normalizeControlCols ["lon", "LON", "lat", "val"] "val" ∧
     "VAL" ∈ normalizeControlCols ["lon", "LON", "lat", "val"] "val" ∧
     ∀ c ∈ normalizeControlCols ["lon", "LON", "lat", "val"] "val",
       c = "LON" ∨ c = "LAT" ∨ c = "VAL") := by decide

/-- C7 amended: the configuration exit of `get_lon_lat_control_values` fires
if and only if the number of normalized header names equal to `LON`, `LAT`
or `VAL`, counted with multiplicity, differs from 3, and every successful
call returns exactly the columns `LON, LAT, VAL`.  (A header with `Lon` and
`Lat` but no value column therefore gets the configuration exit; duplicated
recognized names are rejected even though the column set is right.) -/
theorem control_header_check_counts_with_multiplicity
    (cols : List String) (header_data : String) :
    (get_lon_lat_control_values cols header_data = .error .loggedExit ↔
      ((normalizeControlCols cols header_data).filter
        (fun c => c == "LON" || c == "LAT" || c == "VAL")).length ≠ 3) ∧
    ∀ r, get_lon_lat_control_values cols header_data = .ok r →
      r = ["LON", "LAT", "VAL"] := by
  constructor
  · simp only [get_lon_lat_control_values]
    split_ifs with h1 h2
    · simp [h1]
    · push_neg at h1
      simp [h1]
    · push_neg at h1
      simp [h1]
  · intro r hr
    simp only [get_lon_lat_control_values] at hr
    split_ifs at hr with h1 h2
    all_goals
      first
        | exact (Except.noConfusion hr)
        | (rw [Except.ok.injEq] at hr; exact hr.symm)

/-- C7 witness: the header `Lon, Lat` with no value column is rejected with
the configuration exit. -/
theorem control_header_check_counts_with_multiplicity_witness :
    get_lon_lat_control_values ["Lon", "Lat"] "val" = .error .loggedExit :=
  (control_header_check_counts_with_multiplicity ["Lon", "Lat"] "val").1.mpr
    (by decide)

/-- C10: in points mode `interpolation_model_transform` loops over the
indices of the `LAT` list only, producing one row
`(LON[i], LAT[i], model(LON[i], LAT[i]))` per index; trailing `LON` entries
beyond the length of `LAT` are silently ignored, and a `LON` shorter than
`LAT` makes the call fail with the uncaught `IndexError` from `gridx[y]`
rather than a configuration error. -/
theorem points_mode_iterates_lat_indices (lon lat : List ℚ)
    (m : ℚ → ℚ → ℚ) :
    (lat.length ≤ lon.length →
      ∃ rows, interpolation_model_transform lon lat (some m) "points" =
          .ok rows ∧
        rows.length = lat.length ∧
        ∀ i, i < lat.length →
          rows[i]? = some (lon.getD i 0, lat.getD i 0,
            m (lon.getD i 0) (lat.getD i 0))) ∧
    (lon.length < lat.length →
      interpolation_model_transform lon lat (some m) "points" =
        .error .indexError) := by
  constructor
  · intro hle
    simp only [interpolation_model_transform]
    rw [if_neg (by decide), if_neg (by omega)]
    refine ⟨_, rfl, ?_, ?_⟩
    · rw [List.length_map, List.length_zip, List.length_take]
      omega
    · intro i hi
      have him : i < (((lon.take lat.length).zip lat).map
          (fun p => (p.1, p.2, m p.1 p.2))).length := by
        rw [List.length_map, List.length_zip, List.length_take]
        omega
      rw [List.getElem?_eq_getElem him]
      have hil : i < lon.length := by omega
      rw [List.getElem_map, List.getElem_zip, List.getElem_take,
        List.getD_eq_getElem lon 0 hil, List.getD_eq_getElem lat 0 hi]
  · intro hlt
    simp only [interpolation_model_transform]
    rw [if_neg (by decide), if_pos hlt]

/-- C10 witness at `LON = [1,2,3]`, `LAT = [10,20]` (row 1 pairs index 1 of
both lists, the trailing 3 is ignored) and at `LON = [1]`, `LAT = [10,20]`
(IndexError). -/
theorem points_mode_iterates_lat_indices_witness :
    (∃ rows, interpolation_model_transform [1, 2, 3] [10, 20]
        (some (fun a b => a + b)) "points" = .ok rows ∧
      rows.length = 2 ∧ rows[1]? = some (2, 20, 22)) ∧
    interpolation_model_transform [1] [10, 20] (some (fun a b => a + b))
      "points" = .error .indexError := by
  constructor
  · obtain ⟨rows, h1, h2, h3⟩ :=
      (points_mode_iterates_lat_indices [1, 2, 3] [10, 20]
        (fun a b => a + b)).1 (by norm_num)
    have h4 := h3 1 (by norm_num)
    norm_num at h4
    exact ⟨rows, h1, by simpa using h2, h4⟩
  · exact (points_mode_iterates_lat_indices [1] [10, 20]
      (fun a b => a + b)).2 (by norm_num)

/-- Length of a flattening of equal-length blocks. -/
theorem flatten_map_length {β : Type _} (g : ℚ → List β) (n : ℕ)
    (hg : ∀ a, (g a).length = n) (l : List ℚ) :
    ((l.map g).flatten).length = n * l.length := by
  induction l with
  | nil => simp
  | cons a t ih => simp [ih, hg, Nat.mul_succ]; omega

/-- Indexing a flattening of equal-length blocks: position `y * n + x`
falls in block `y` at offset `x`. -/
theorem flatten_map_getElem {β : Type _} (g : ℚ → List β) (n : ℕ)
    (hg : ∀ a, (g a).length = n) :
    ∀ (l : List ℚ) (y x : ℕ), y < l.length → x < n →
      ((l.map g).flatten)[y * n + x]? = (g (l.getD y 0))[x]? := by
  intro l
  induction l with
  | nil => intro y x hy hx; simp at hy
  | cons a t ih =>
    intro y x hy hx
    cases y with
    | zero =>
      simp only [List.map_cons, List.flatten_cons, List.getD_cons_zero,
        Nat.zero_mul, Nat.zero_add]
      rw [List.getElem?_append_left (by rw [hg]; omega)]
    | succ y =>
      simp only [List.map_cons, List.flatten_cons, List.getD_cons_succ]
      have hidx : (y + 1) * n + x = n + (y * n + x) := by ring
      rw [hidx,
        List.getElem?_append_right (by rw [hg]; exact Nat.le_add_right n _),
        hg, Nat.add_sub_cancel_left]
      exact ih y x (by simpa using hy) hx

/-- C4: in grid mode `interpolation_model_transform` returns exactly
`nx * ny` rows, enumerating `(LON[x], LAT[y], model(LON[x], LAT[y]))` with
the `LAT` axis as the outer loop and the `LON` axis as the inner loop, so
row `y * nx + x` holds the pair `(LON[x], LAT[y])` (latitude-major order). -/
theorem grid_mode_latitude_major (lon lat : List ℚ) (m : ℚ → ℚ → ℚ) :
    ∃ rows, interpolation_model_transform lon lat (some m) "grid" =
        .ok rows ∧
      rows.length = lon.length * lat.length ∧
      ∀ y x, y < lat.length → x < lon.length →
        rows[y * lon.length + x]? =
          some (lon.getD x 0, lat.getD y 0,
            m (lon.getD x 0) (lat.getD y 0)) := by
  simp only [interpolation_model_transform]
  rw [if_pos trivial]
  refine ⟨_, rfl, ?_, ?_⟩
  · exact flatten_map_length _ lon.length (by intro a; simp) lat
  · intro y x hy hx
    rw [flatten_map_getElem _ lon.length (by intro a; simp) lat y x hy hx]
    have hxm : x < (lon.map
        (fun gx => (gx, lat.getD y 0, m gx (lat.getD y 0)))).length := by
      rw [List.length_map]; exact hx
    rw [List.getElem?_eq_getElem hxm, List.getElem_map,
      List.getD_eq_getElem lon 0 hx]

/-- C4 witness on axes `nx = 3, ny = 2`: 6 rows, and row `1 * 3 + 0` pairs
`LON[0]` with `LAT[1]`. -/
theorem grid_mode_latitude_major_witness :
    ∃ rows, interpolation_model_transform [1, 2, 3] [10, 20]
        (some (fun a b => a + b)) "grid" = .ok rows ∧
      rows.length = 6 ∧ rows[3]? = some (1, 20, 21) := by
  obtain ⟨rows, h1, h2, h3⟩ :=
    grid_mode_latitude_major [1, 2, 3] [10, 20] (fun a b => a + b)
  have h4 := h3 1 0 (by norm_num) (by norm_num)
  norm_num at h4
  exact ⟨rows, h1, by simpa using h2, h4⟩

/-- Folding the Python `min` step over singleton score lists keeps a
singleton holding a minimal score. -/
theorem pyMin_fold_singletons (t : List ℚ) : ∀ s : ℚ,
    ∃ m, (t.map (fun x => [x])).foldl
        (fun acc x => if pyListLt x acc then x else acc) [s] = [m] ∧
      (m = s ∨ m ∈ t) ∧ m ≤ s ∧ ∀ x ∈ t, m ≤ x := by
  induction t with
  | nil =>
    intro s
    exact ⟨s, rfl, Or.inl rfl, le_refl s, by simp⟩
  | cons b t ih =>
    intro s
    obtain ⟨m, hfold, hmem, hle, hall⟩ := ih (if b < s then b else s)
    have hstep : ((b :: t).map (fun x => [x])).foldl
        (fun acc x => if pyListLt x acc then x else acc) [s] =
        (t.map (fun x => [x])).foldl
          (fun acc x => if pyListLt x acc then x else acc)
          [if b < s then b else s] := by
      simp only [List.map_cons, List.foldl_cons]
      congr 1
      by_cases hbs : b < s
      · simp [pyListLt, hbs]
      · simp [pyListLt, hbs]
    rw [hstep]
    refine ⟨m, hfold, ?_, ?_, ?_⟩
    · rcases hmem with h1 | h1
      · by_cases hbs : b < s
        · right; rw [h1, if_pos hbs]; exact List.mem_cons_self b t
        · left; rw [h1, if_neg hbs]
      · right; exact List.mem_cons_of_mem b h1
    · by_cases hbs : b < s
      · rw [if_pos hbs] at hle; exact le_of_lt (lt_of_le_of_lt hle hbs)
      · rw [if_neg hbs] at hle; exact hle
    · intro x hx
      rcases List.mem_cons.mp hx with h1 | h1
      · rw [h1]
        by_cases hbs : b < s
        · rw [if_pos hbs] at hle; exact hle
        · rw [if_neg hbs] at hle; exact le_trans hle (le_of_not_lt hbs)
      · exact hall x h1

/-- One score series of the report: per-fold singleton entries, mean, and a
best entry holding a minimal fold score. -/
theorem aggregate_scores_spec (scores : List ℚ) (h : scores ≠ []) :
    (aggregate_scores scores).fold_scores = scores.map (fun x => [x]) ∧
    (aggregate_scores scores).avg = scores.sum / scores.length ∧
    ∃ m, (aggregate_scores scores).best = [m] ∧ m ∈ scores ∧
      ∀ x ∈ scores, m ≤ x := by
  refine ⟨rfl, ?_, ?_⟩
  · show (scores.foldl (fun a b => a + b) 0) / (scores.length : ℚ) = _
    rw [List.sum_eq_foldl]
  · obtain ⟨s, rest, rfl⟩ := List.exists_cons_of_ne_nil h
    obtain ⟨m, hfold, hmem, hle, hall⟩ := pyMin_fold_singletons rest s
    refine ⟨m, ?_, ?_, ?_⟩
    · show pyMinLists ((s :: rest).map (fun x => [x])) = [m]
      simpa [pyMinLists] using hfold
    · rcases hmem with h1 | h1
      · rw [h1]; exact List.mem_cons_self s rest
      · exact List.mem_cons_of_mem s h1
    · intro x hx
      rcases List.mem_cons.mp hx with h1 | h1
      · rw [h1]; exact hle
      · exact hall x h1

/-- C8: the report of a completed `K`-fold cross-validation run holds, for
each of the two score series (station folds and control folds), every
per-fold score (stored as the singleton list the code appends), an average
entry equal to the arithmetic mean of the `K` per-fold scores, and a best
entry holding the minimum per-fold score. -/
theorem cv_report_scores_mean_min (station_scores cntl_scores : List ℚ)
    (hs : station_scores ≠ []) (hc : cntl_scores ≠ []) :
    ((test_interpolation_fit_report station_scores cntl_scores).1.fold_scores =
        station_scores.map (fun x => [x]) ∧
      (test_interpolation_fit_report station_scores cntl_scores).1.avg =
        station_scores.sum / station_scores.length ∧
      ∃ m, (test_interpolation_fit_report station_scores
            cntl_scores).1.best = [m] ∧
        m ∈ station_scores ∧ ∀ x ∈ station_scores, m ≤ x) ∧
    ((test_interpolation_fit_report station_scores cntl_scores).2.fold_scores =
        cntl_scores.map (fun x => [x]) ∧
      (test_interpolation_fit_report station_scores cntl_scores).2.avg =
        cntl_scores.sum / cntl_scores.length ∧
      ∃ m, (test_interpolation_fit_report station_scores
            cntl_scores).2.best = [m] ∧
        m ∈ cntl_scores ∧ ∀ x ∈ cntl_scores, m ≤ x) :=
  ⟨aggregate_scores_spec station_scores hs,
   aggregate_scores_spec cntl_scores hc⟩

/-- C8 witness on the station scores `[3, 1, 2]` and the control scores
`[5, 4]`. -/
theorem cv_report_scores_mean_min_witness :
    (test_interpolation_fit_report [3, 1, 2] [5, 4]).1.fold_scores =
      [[3], [1], [2]] ∧
    (test_interpolation_fit_report [3, 1, 2] [5, 4]).1.avg = 2 ∧
    ∃ m, (test_interpolation_fit_report [3, 1, 2] [5, 4]).1.best = [m] ∧
      m ∈ [(3 : ℚ), 1, 2] ∧ ∀ x ∈ [(3 : ℚ), 1, 2], m ≤ x := by
  obtain ⟨⟨h1, h2, h3⟩, -⟩ :=
    cv_report_scores_mean_min [3, 1, 2] [5, 4] (by simp) (by simp)
  refine ⟨by simpa using h1, ?_, h3⟩
  rw [h2]
  norm_num [List.sum_cons, List.sum_nil]

/-- Start indices of consecutive folds advance by the fold size. -/
theorem kfold_start_succ (N K i : ℕ) :
    kfold_fold_start N K (i + 1) =
      kfold_fold_start N K i + kfold_fold_size N K i := by
  unfold kfold_fold_start kfold_fold_size
  rw [Nat.succ_mul]
  by_cases h : i < N % K
  · rw [if_pos h]
    omega
  · rw [if_neg h]
    omega

/-- The concatenation of the first `j` test folds is the contiguous index
range up to the start of fold `j`. -/
theorem kfold_prefix_flatten (N K : ℕ) : ∀ j,
    (((List.range j).map (fun i => List.range' (kfold_fold_start N K i)
        (kfold_fold_size N K i))).flatten) =
      List.range' 0 (kfold_fold_start N K j) := by
  intro j
  induction j with
  | zero => simp [kfold_fold_start]
  | succ j ih =>
    rw [List.range_succ, List.map_append, List.flatten_append, ih]
    simp only [List.map_cons, List.map_nil, List.flatten_cons,
      List.flatten_nil, List.append_nil]
    rw [kfold_start_succ]
    have happ := List.range'_append_1 0 (kfold_fold_start N K j)
      (kfold_fold_size N K j)
    rw [Nat.zero_add] at happ
    rw [happ]
    congr 1
    omega

/-- The start of the one-past-last fold is the sample count. -/
theorem kfold_start_last (N K : ℕ) (hK : 0 < K) :
    kfold_fold_start N K K = N := by
  unfold kfold_fold_start
  rw [min_eq_right (le_of_lt (Nat.mod_lt N hK))]
  exact Nat.div_add_mod N K

/-- C5: over the station set purged of missing values, the `K` test folds
that the cross-validation harness iterates over are contiguous index
blocks, pairwise disjoint, and their concatenation is exactly the index
range of the purged station set, each index exactly once. -/
theorem kfold_partition (df_source : Frame) (K : ℕ)
    (h2 : 2 ≤ K) (hK : K ≤ (dropna df_source).length) :
    ∃ folds, test_interpolation_fit_folds df_source K = .ok folds ∧
      folds.flatten = List.range (dropna df_source).length ∧
      List.Pairwise List.Disjoint folds ∧
      ∀ f ∈ folds, ∃ s n, f = List.range' s n := by
  have hKpos : 0 < K := by omega
  have hflat : (kfold_test_folds (dropna df_source).length K).flatten =
      List.range (dropna df_source).length := by
    unfold kfold_test_folds
    rw [kfold_prefix_flatten, kfold_start_last _ _ hKpos,
      List.range_eq_range']
  refine ⟨kfold_test_folds (dropna df_source).length K, ?_, hflat, ?_, ?_⟩
  · unfold test_interpolation_fit_folds kfold_split
    rw [if_pos ⟨h2, hK⟩]
  · have hnd : (kfold_test_folds (dropna df_source).length K).flatten.Nodup := by
      rw [hflat]; exact List.nodup_range _
    exact (List.nodup_flatten.mp hnd).2
  · intro f hf
    unfold kfold_test_folds at hf
    obtain ⟨i, _, rfl⟩ := List.mem_map.mp hf
    exact ⟨_, _, rfl⟩

/-- C5 witness: a 5-station set with 2 folds. -/
theorem kfold_partition_witness :
    ∃ folds, test_interpolation_fit_folds
        [(0, 0, some 1), (1, 0, some 2), (2, 0, some 3), (3, 0, some 4),
         (4, 0, some 5)] 2 = .ok folds ∧
      folds.flatten = List.range 5 ∧
      List.Pairwise List.Disjoint folds ∧
      ∀ f ∈ folds, ∃ s n, f = List.range' s n := by
  have h := kfold_partition
    [(0, 0, some 1), (1, 0, some 2), (2, 0, some 3), (3, 0, some 4),
     (4, 0, some 5)] 2 (by norm_num)
    (by norm_num [dropna, List.filterMap_cons])
  norm_num [dropna, List.filterMap_cons] at h
  exact h

/-- Linear interpolation inside a nondegenerate triangle reproduces the
value at vertex `A`. -/
theorem interpTri_at_A (t : Tri) (hd : triDet t ≠ 0) :
    interpTri t t.A.1 = t.A.2 := by
  unfold triDet at hd
  unfold interpTri baryA baryB baryC triDet
  field_simp

/-- Linear interpolation inside a nondegenerate triangle reproduces the
value at vertex `B`. -/
theorem interpTri_at_B (t : Tri) (hd : triDet t ≠ 0) :
    interpTri t t.B.1 = t.B.2 := by
  unfold triDet at hd
  unfold interpTri baryA baryB baryC triDet
  field_simp
  ring

/-- Linear interpolation inside a nondegenerate triangle reproduces the
value at vertex `C`. -/
theorem interpTri_at_C (t : Tri) (hd : triDet t ≠ 0) :
    interpTri t t.C.1 = t.C.2 := by
  unfold triDet at hd
  unfold interpTri baryA baryB baryC triDet
  field_simp
  ring

/-- C3: the Linear model returned by `interpolation_model_fit` reproduces,
at each of its own training coordinates, that coordinate's training value
(exactly, over the rational embedding of the floats).  The hypotheses state
the guarantees of the Delaunay triangulation scipy builds internally:
`DelaunayValid` (vertices come from the data, triangles are nondegenerate,
no data point lies in a triangle it is not a vertex of), coordinate/value
consistency of the training data, and coverage of the queried training
point by some triangle — all of which hold for the triangulation of a data
set with at least 4 non-collinear, distinct, missing-free points, the
situation the claim quantifies over. -/
theorem linear_model_exact_at_training_points
    (df_combined : Frame) (fill_value : ℚ)
    (delaunay : List ((ℚ × ℚ) × ℚ) → List Tri) (m : LinModel)
    (_hfit : interpolation_model_fit df_combined fill_value
      "LinearNDInterpolator" delaunay = .ok (.linear m))
    (hvalid : DelaunayValid m.data m.tris)
    (hinj : ∀ pv ∈ m.data, ∀ qv ∈ m.data, pv.1 = qv.1 → pv.2 = qv.2)
    (pv : (ℚ × ℚ) × ℚ) (hpv : pv ∈ m.data)
    (hcov : ∃ t ∈ m.tris, triContains t pv.1) :
    linEval m pv.1 = pv.2 := by
  unfold linEval
  obtain ⟨t0, ht0mem, ht0c⟩ := hcov
  have hsome : (m.tris.find? (fun t => triContains t pv.1)).isSome := by
    rw [List.find?_isSome]
    exact ⟨t0, ht0mem, ht0c⟩
  obtain ⟨t, ht⟩ := Option.isSome_iff_exists.mp hsome
  rw [ht]
  show interpTri t pv.1 = pv.2
  have htmem : t ∈ m.tris := List.mem_of_find?_eq_some ht
  have htc : triContains t pv.1 = true := by
    have h := List.find?_some ht
    simpa using h
  obtain ⟨⟨hA, hB, hC⟩, hdet, hnoj⟩ := hvalid t htmem
  rcases hnoj pv hpv htc with h | h | h
  · rw [h, interpTri_at_A t hdet]
    exact hinj t.A hA pv hpv h.symm
  · rw [h, interpTri_at_B t hdet]
    exact hinj t.B hB pv hpv h.symm
  · rw [h, interpTri_at_C t hdet]
    exact hinj t.C hC pv hpv h.symm

/-- C3 witness: the four-point unit-square training set with its two
Delaunay triangles; the fitted Linear model evaluates to the training value
1 at the training coordinate `(0, 0)`. -/
theorem linear_model_exact_witness :
    linEval
      { data := [((0, 0), 1), ((1, 0), 2), ((0, 1), 3), ((1, 1), 4)],
        tris := [⟨((0, 0), 1), ((1, 0), 2), ((0, 1), 3)⟩,
                 ⟨((1, 0), 2), ((1, 1), 4), ((0, 1), 3)⟩],
        fill := 0 } ((0 : ℚ), (0 : ℚ)) = 1 := by
  refine linear_model_exact_at_training_points
    [(0, 0, some 1), (1, 0, some 2), (0, 1, some 3), (1, 1, some 4)] 0
    (fun _ => [⟨((0, 0), 1), ((1, 0), 2), ((0, 1), 3)⟩,
               ⟨((1, 0), 2), ((1, 1), 4), ((0, 1), 3)⟩])
    { data := [((0, 0), 1), ((1, 0), 2), ((0, 1), 3), ((1, 1), 4)],
      tris := [⟨((0, 0), 1), ((1, 0), 2), ((0, 1), 3)⟩,
               ⟨((1, 0), 2), ((1, 1), 4), ((0, 1), 3)⟩],
      fill := 0 }
    (by decide) ?_ (by decide) ((0, 0), 1) (by decide) ?_
  · norm_num [DelaunayValid, triContains, baryA, baryB, baryC, triDet]
  · refine ⟨⟨((0, 0), 1), ((1, 0), 2), ((0, 1), 3)⟩, by simp, ?_⟩
    norm_num [triContains, baryA, baryB, baryC, triDet]
